import Mathlib

/-!
Shallow embedding of the retrieval pipeline of `research-paper-connector`
(src/src/document_processor.py, src/src/search_engine.py,
src/src/endee_client.py, src/src/ingestion.py, src/src/embeddings.py,
src/src/config.py), together with theorems settling the frozen claims
about its specification.

Modelling conventions:
* document text is `List Char`; scores and vector components are `ℚ`
  (the claims under scrutiny are order/filter/structure properties that do
  not depend on floating-point rounding);
* the HTTP transport of the vector store is an oracle parameter: a function
  producing `Except PyError HttpResponse`, so every transport error and every
  status code is covered by quantification;
* Python's blanket `try/except` blocks are modelled with `Except` bodies and
  an explicit catch that maps any error to the documented falsy value.
-/

namespace RPC

/-- ASCII portion of Python's regex class `\s` and of `str.strip`'s default
strip set: space, tab, newline, carriage return, vertical tab, form feed.
(The claims' inputs are ASCII.) -/
def isPySpace (c : Char) : Bool :=
  c = ' ' || c = '\t' || c = '\n' || c = '\r' || c = Char.ofNat 11 || c = Char.ofNat 12

/-- Python `str.strip()`: drop leading and trailing whitespace. -/
def stripChars (s : List Char) : List Char :=
  ((s.dropWhile isPySpace).reverse.dropWhile isPySpace).reverse

/-- Index of the last newline in a character list, if any. -/
def lastNewlineIdx : List Char → Option Nat
  | [] => none
  | c :: rest =>
    match lastNewlineIdx rest with
    | some k => some (k + 1)
    | none => if c = '\n' then some 0 else none

/-- Length of the match of the regex `\n\s*\n` (document_processor.py line
152) anchored at the head of `s`, if it matches there: a newline, then the
greedy `\s*` which backtracks so that the whitespace run it consumes ends
just before a final newline.  The match therefore spans the initial newline
plus the whitespace prefix up to and including its last newline. -/
def blankMatchLen (s : List Char) : Option Nat :=
  match s with
  | '\n' :: rest =>
    match lastNewlineIdx (rest.takeWhile isPySpace) with
    | some k => some (k + 2)
    | none => none
  | _ => none

/-- Worker for `re.split(r'\n\s*\n', text)`: leftmost, non-overlapping
matches split the text; `acc` holds the current segment reversed.  `fuel`
bounds the recursion (every step consumes at least one character, so
`text.length + 1` is always enough); it makes the definition structural so
that concrete inputs evaluate inside the kernel. -/
def reSplitGo : Nat → List Char → List Char → List (List Char)
  | 0, acc, _ => [acc.reverse]
  | _ + 1, acc, [] => [acc.reverse]
  | fuel + 1, acc, c :: rest =>
    match blankMatchLen (c :: rest) with
    | some n => acc.reverse :: reSplitGo fuel [] ((c :: rest).drop n)
    | none => reSplitGo fuel (c :: acc) rest

/-- `re.split(r'\n\s*\n', text)` (document_processor.py line 152). -/
def reSplitBlank (s : List Char) : List (List Char) :=
  reSplitGo (s.length + 1) [] s

/-- `DocumentProcessor.split_into_paragraphs` (document_processor.py lines
139-157): split on blank-line boundaries, strip each piece, keep only the
pieces longer than 50 characters. -/
def split_into_paragraphs (text : List Char) : List (List Char) :=
  ((reSplitBlank text).map stripChars).filter (fun p => 50 < p.length)

/-- Greedy paragraph-packing loop of `DocumentProcessor.split_into_chunks`
(document_processor.py lines 179-193): `current` is the running chunk text
(paragraphs joined by a blank line); when adding the next paragraph would
reach the chunk size, the running chunk is emitted (stripped). -/
def packGo (chunk_size : Nat) : List (List Char) → List Char → List (List Char)
  | [], current => if current.isEmpty then [] else [stripChars current]
  | para :: rest, current =>
    if current.length + para.length < chunk_size then
      packGo chunk_size rest (current ++ para ++ ['\n', '\n'])
    else if current.isEmpty then
      packGo chunk_size rest (para ++ ['\n', '\n'])
    else
      stripChars current :: packGo chunk_size rest (para ++ ['\n', '\n'])

/-- `DocumentProcessor.split_into_chunks(text, use_paragraphs=True)`
(document_processor.py lines 159-193).  `process_document` always calls the
chunker with `use_paragraphs=True`; the character-window fallback branch
(lines 195-209) is dead code for every claim and is not modelled. -/
def split_into_chunks (chunk_size : Nat) (text : List Char) : List (List Char) :=
  packGo chunk_size (split_into_paragraphs text) []

/-- Worker for `re.sub(r'\s+', ' ', text)` (document_processor.py line 129):
replace every maximal whitespace run by a single space.  The flag records
whether the previous character was whitespace. -/
def collapseWsGo : Bool → List Char → List Char
  | _, [] => []
  | prevSpace, c :: rest =>
    if isPySpace c then
      if prevSpace then collapseWsGo true rest
      else ' ' :: collapseWsGo true rest
    else c :: collapseWsGo false rest

/-- `re.sub(r'\s+', ' ', text)`. -/
def collapseWs (s : List Char) : List Char := collapseWsGo false s

/-- `DocumentProcessor.clean_text` (document_processor.py lines 118-137):
collapse whitespace runs to single spaces, then remove `\n\d+\n` page-number
patterns, then strip.  After the first substitution the text contains no
newline (lemma `newline_not_mem_collapseWs` below), so the page-number
substitution never fires and is the identity. -/
def clean_text (text : List Char) : List Char :=
  stripChars (collapseWs text)

/-- Metadata attached to a chunk by `DocumentProcessor.process_document`
(document_processor.py lines 247-254): the caller-supplied base metadata
dict, then the keys `paper_id`, `chunk_index`, `total_chunks`, `chunk_text`
(which overwrite any base entry of the same name, hence separate fields). -/
structure ChunkMetadata where
  base : List (String × String)
  paper_id : String
  chunk_index : Nat
  total_chunks : Nat
  chunk_text : List Char
deriving DecidableEq, Repr

/-- `DocumentChunk` (document_processor.py lines 20-25). -/
structure DocumentChunk where
  text : List Char
  chunk_index : Nat
  metadata : ChunkMetadata
deriving DecidableEq, Repr

/-- `DocumentProcessor.process_document` (document_processor.py lines
211-263), parametrised by the text the extraction step returned (an
unreadable or missing file yields the empty string, per
`extract_text`/`extract_text_from_txt`). -/
def process_document (chunk_size : Nat) (rawText : List Char) (paper_id : String)
    (base : List (String × String)) : List DocumentChunk :=
  if rawText.isEmpty then []
  else
    let cleaned := clean_text rawText
    let chunks := split_into_chunks chunk_size cleaned
    chunks.enum.map (fun it =>
      { text := it.2
        chunk_index := it.1
        metadata :=
          { base := base
            paper_id := paper_id
            chunk_index := it.1
            total_chunks := chunks.length
            chunk_text := it.2 } })

/-- The 60-character paragraph of `A`s from the spec's chunking scenario. -/
def paraA : List Char := List.replicate 60 'A'

/-- The 60-character paragraph of `B`s from the spec's chunking scenario. -/
def paraB : List Char := List.replicate 60 'B'

/-- The 60-character paragraph of `C`s from the spec's chunking scenario. -/
def paraC : List Char := List.replicate 60 'C'

/-- The scenario document: three 60-character paragraphs separated by blank
lines. -/
def threeParaText : List Char :=
  paraA ++ ['\n', '\n'] ++ paraB ++ ['\n', '\n'] ++ paraC

/-- `settings.CHUNK_SIZE` (config.py line 23). -/
def CHUNK_SIZE : Nat := 500

/-- `settings.TOP_K_RESULTS` (config.py line 28). -/
def TOP_K_RESULTS : Nat := 10

/-- `settings.SIMILARITY_THRESHOLD` (config.py line 29), the value 0.5.
Written as a normalised fraction so that kernel evaluation (`decide`) can
compute with it; the lemma `SIMILARITY_THRESHOLD_eq_half` below identifies
it with `1 / 2`. -/
def SIMILARITY_THRESHOLD : ℚ := Rat.mk' 1 2

/-- The metadata dictionary carried by a stored vector / search hit, reduced
to the keys the search engine reads (search_engine.py lines 112-118); a
`none` field models an absent key. -/
structure HitMetadata where
  paper_id : Option String
  title : Option String
  chunk_text : Option String
  chunk_index : Option Nat
deriving DecidableEq, Repr

/-- `SearchResult` (endee_client.py lines 26-30), with the score as `ℚ`. -/
structure SearchResult where
  id : String
  score : ℚ
  metadata : HitMetadata
deriving DecidableEq, Repr

/-- `SearchMatch` (search_engine.py lines 15-23). -/
structure SearchMatch where
  paper_id : String
  paper_title : String
  chunk_text : String
  chunk_index : Nat
  similarity_score : ℚ
  metadata : HitMetadata
deriving DecidableEq, Repr

/-- `SearchEngine._convert_to_search_match` (search_engine.py lines 107-122):
read the hit's metadata with the defaults of `dict.get`; nothing in the body
can raise, so the `except` branch returning `None` is unreachable and the
embedding is total. -/
def convert_to_search_match (r : SearchResult) : SearchMatch :=
  { paper_id := r.metadata.paper_id.getD "unknown"
    paper_title := r.metadata.title.getD "Untitled"
    chunk_text := r.metadata.chunk_text.getD ""
    chunk_index := r.metadata.chunk_index.getD 0
    similarity_score := r.score
    metadata := r.metadata }

/-- Python `x or default` for an optional float argument: both `None` and
`0.0` are falsy and select the default (search_engine.py line 78). -/
def pyOrQ (x : Option ℚ) (d : ℚ) : ℚ :=
  match x with
  | none => d
  | some t => if t = 0 then d else t

/-- Python `x or default` for an optional int argument: both `None` and `0`
are falsy and select the default (search_engine.py line 77). -/
def pyOrNat (x : Option Nat) (d : Nat) : Nat :=
  match x with
  | none => d
  | some k => if k = 0 then d else k

/-- `SearchEngine.search` (search_engine.py lines 57-105).  The embedded
query is fixed, so the gateway call is abstracted as `store`, mapping the
`k` sent to the store to the hit list it returns; `default_top_k` is the
engine's `self.top_k`.  The body converts every hit whose score reaches the
effective threshold; `_convert_to_search_match` never returns `None`, so the
`if match` guard always passes. -/
def SearchEngine.search (store : Nat → List SearchResult) (default_top_k : Nat)
    (top_k : Option Nat) (min_similarity : Option ℚ) : List SearchMatch :=
  let k := pyOrNat top_k default_top_k
  let threshold := pyOrQ min_similarity SIMILARITY_THRESHOLD
  ((store k).filter (fun r => threshold ≤ r.score)).map convert_to_search_match

/-- Stable descending insertion used to model `list.sort(key=score,
reverse=True)` (search_engine.py lines 235-239): a new element goes after
every element whose score is at least its own, so equal-score elements keep
their prior relative order, exactly as Python's stable sort guarantees. -/
def insertDesc (x : SearchMatch) : List SearchMatch → List SearchMatch
  | [] => [x]
  | y :: ys =>
    if x.similarity_score ≤ y.similarity_score then y :: insertDesc x ys
    else x :: y :: ys

/-- Stable sort of a group by descending `similarity_score`. -/
def sortDesc (l : List SearchMatch) : List SearchMatch :=
  l.foldl (fun acc x => insertDesc x acc) []

/-- One step of the grouping loop of `aggregate_results_by_paper`
(search_engine.py lines 228-232): append the match to its paper's group,
creating the group at the end on first encounter (Python dicts preserve
insertion order, modelled as an association list with unique keys). -/
def addMatch : List (String × List SearchMatch) → SearchMatch →
    List (String × List SearchMatch)
  | [], m => [(m.paper_id, [m])]
  | pg :: rest, m =>
    if pg.1 = m.paper_id then (pg.1, pg.2 ++ [m]) :: rest
    else pg :: addMatch rest m

/-- The grouping phase of `SearchEngine.aggregate_results_by_paper`. -/
def groupByPaper (ms : List SearchMatch) : List (String × List SearchMatch) :=
  ms.foldl addMatch []

/-- `SearchEngine.aggregate_results_by_paper` (search_engine.py lines
213-241): group by paper id in encounter order, then stably sort each group
by descending score. -/
def aggregate_results_by_paper (ms : List SearchMatch) :
    List (String × List SearchMatch) :=
  (groupByPaper ms).map (fun pg => (pg.1, sortDesc pg.2))

/-- Value of an association list at a key (empty list when absent); with
unique keys this is exactly dictionary access. -/
def lookupGroup (p : String) : List (String × List SearchMatch) → List SearchMatch
  | [] => []
  | pg :: rest => if pg.1 = p then pg.2 else lookupGroup p rest

/-- Distinct paper ids of a match list in first-encounter order, continuing
from the already-seen keys `seen`. -/
def encounterKeys : List SearchMatch → List String → List String
  | [], seen => seen
  | m :: rest, seen =>
    encounterKeys rest (if m.paper_id ∈ seen then seen else seen ++ [m.paper_id])

/-- Distinct paper ids of a match list in first-encounter order. -/
def paperKeys (ms : List SearchMatch) : List String := encounterKeys ms []

/-- Exceptions a gateway call can raise: httpx transport errors,
`response.json()` decode errors, `item[...]` key errors, `range(..., 0)`
value errors, and missing-attribute errors. -/
inductive PyError where
  | httpxError
  | jsonError
  | keyError
  | valueError
  | attributeError
deriving DecidableEq, Repr

/-- One raw item of the store's search response body; `none` fields model
absent JSON keys. -/
structure RawHit where
  idKey : Option String
  scoreKey : Option ℚ
  metadataKey : Option HitMetadata
deriving DecidableEq, Repr

/-- An HTTP response from the store: its status code and, for search, the
parsed `response.json().get("results", [])` (`none` models a body on which
`.json()` raises). -/
structure HttpResponse where
  status : Nat
  results : Option (List RawHit)
deriving DecidableEq, Repr

/-- The empty metadata dict used by `item.get("metadata", {})`. -/
def emptyHitMetadata : HitMetadata := ⟨none, none, none, none⟩

/-- Building one `SearchResult` from a raw item (endee_client.py lines
160-167): `item["id"]` and `item["score"]` raise `KeyError` when absent;
`item.get("metadata", {})` defaults to the empty dict. -/
def parseHit (h : RawHit) : Except PyError SearchResult :=
  match h.idKey, h.scoreKey with
  | some i, some s => .ok ⟨i, s, h.metadataKey.getD emptyHitMetadata⟩
  | _, _ => .error .keyError

/-- The `try` body of `EndeeClient.search` (endee_client.py lines 140-167),
with the transport outcome as input. -/
def EndeeClient.search_body (resp : Except PyError HttpResponse) :
    Except PyError (List SearchResult) :=
  match resp with
  | .error e => .error e
  | .ok r =>
    if r.status ≠ 200 then .ok []
    else
      match r.results with
      | none => .error .jsonError
      | some hits => hits.mapM parseHit

/-- `EndeeClient.search` (endee_client.py lines 134-171): the `try` body
with the blanket `except` mapping any raised error to `[]`. -/
def EndeeClient.search_client (resp : Except PyError HttpResponse) :
    List SearchResult :=
  match EndeeClient.search_body resp with
  | .ok v => v
  | .error _ => []

/-- A stored vector record, `VectorDocument` (endee_client.py lines 19-23),
as built by the ingestion pipeline. -/
structure VectorDocument where
  id : String
  vector : List ℚ
  metadata : ChunkMetadata
deriving DecidableEq, Repr

/-- Worker splitting a list into consecutive batches of `bs` elements, the
slices of `range(0, len(documents), batch_size)`; the fuel (list length is
always enough when `bs ≥ 1`) keeps the recursion structural. -/
def chunksOfGo {α : Type} : Nat → Nat → List α → List (List α)
  | 0, _, _ => []
  | _, _, [] => []
  | fuel + 1, bs, l => l.take bs :: chunksOfGo fuel bs (l.drop bs)

/-- The batches `documents[i:i+batch_size]` of endee_client.py line 102. -/
def chunksOf {α : Type} (bs : Nat) (l : List α) : List (List α) :=
  chunksOfGo l.length bs l

/-- The batch loop of `EndeeClient.insert_vectors` (endee_client.py lines
101-125): each batch is `PUT` through the transport; a raised transport
error propagates, a non-200/201 status returns `False`, exhausting the
batches returns `True`. -/
def insertLoopBody (transport : List VectorDocument → Except PyError HttpResponse) :
    List (List VectorDocument) → Except PyError Bool
  | [] => .ok true
  | batch :: rest =>
    match transport batch with
    | .error e => .error e
    | .ok r =>
      if r.status = 200 ∨ r.status = 201 then insertLoopBody transport rest
      else .ok false

/-- The `try` body of `EndeeClient.insert_vectors` (endee_client.py lines
98-125).  A `batch_size` of zero makes `range(0, n, 0)` raise `ValueError`
before any request is sent. -/
def EndeeClient.insert_vectors_body
    (transport : List VectorDocument → Except PyError HttpResponse)
    (documents : List VectorDocument) (batch_size : Nat) : Except PyError Bool :=
  if batch_size = 0 then .error .valueError
  else insertLoopBody transport (chunksOf batch_size documents)

/-- `EndeeClient.insert_vectors` (endee_client.py lines 89-129): the `try`
body with the blanket `except` mapping any raised error to `False`. -/
def EndeeClient.insert_vectors
    (transport : List VectorDocument → Except PyError HttpResponse)
    (documents : List VectorDocument) (batch_size : Nat) : Bool :=
  match EndeeClient.insert_vectors_body transport documents batch_size with
  | .ok b => b
  | .error _ => false

/-- `EndeeClient.delete_collection` (endee_client.py lines 76-84): statuses
200, 204 and 404 all count as success; a raised transport error is caught
and becomes `False`. -/
def EndeeClient.delete_collection (resp : Except PyError HttpResponse) : Bool :=
  match resp with
  | .error _ => false
  | .ok r => r.status == 200 || r.status == 204 || r.status == 404

/-- `EndeeClient.health_check` (endee_client.py lines 62-68). -/
def EndeeClient.health_check (resp : Except PyError HttpResponse) : Bool :=
  match resp with
  | .error _ => false
  | .ok r => r.status == 200

/-- Dot product over rational vectors, `np.dot` (embeddings.py line 82). -/
def dotList (a b : List ℚ) : ℚ := (List.zipWith (fun x y => x * y) a b).sum

/-- `EmbeddingModel.compute_similarity` (embeddings.py lines 74-82).
`np.linalg.norm` computes the Euclidean norm in floating point; the claimed
properties (the `if denom` zero-guard and symmetry) depend only on the norm
being one fixed function applied to each argument, so the embedding takes
that function as the parameter `nrm`. -/
def compute_similarity (nrm : List ℚ → ℚ) (v1 v2 : List ℚ) : ℚ :=
  let denom := nrm v1 * nrm v2
  if denom = 0 then 0 else dotList v1 v2 / denom

/-- The records `ingest_single_paper` builds (ingestion.py lines 79-87):
chunks zipped positionally with the batch-embedding output, each record with
the deterministic id `{paper_id}_chunk_{chunk_index}`. -/
def ingest_build (paper_id : String) (chunks : List DocumentChunk)
    (embeddings : List (List ℚ)) : List VectorDocument :=
  (chunks.zip embeddings).map (fun ce =>
    { id := paper_id ++ "_chunk_" ++ toString ce.1.chunk_index
      vector := ce.2
      metadata := ce.1.metadata })

/-- Outcome of one `ingest_single_paper` call: its boolean result and the
argument of each `insert_vectors` call it made (the write trace). -/
structure IngestResult where
  success : Bool
  insertCalls : List (List VectorDocument)
deriving DecidableEq, Repr

/-- `IngestionPipeline.ingest_single_paper` (ingestion.py lines 51-99),
parametrised by the store transport, the batch embedder (`embed_batch`,
whose contract returns one vector per input text, same order), the raw text
extraction returned, the assigned paper id, and the metadata dict after the
`file_path`/`file_name` keys were recorded.  Zero chunks fail before any
embedding or store call; otherwise the records are built and passed to
`insert_vectors`, whose boolean is returned. -/
def IngestionPipeline.ingest_single_paper
    (transport : List VectorDocument → Except PyError HttpResponse)
    (embedder : List (List Char) → List (List ℚ))
    (chunk_size : Nat) (rawText : List Char) (paper_id : String)
    (base : List (String × String)) : IngestResult :=
  let chunks := process_document chunk_size rawText paper_id base
  if chunks.isEmpty then { success := false, insertCalls := [] }
  else
    let embeddings := embedder (chunks.map DocumentChunk.text)
    let vectors := ingest_build paper_id chunks embeddings
    { success := EndeeClient.insert_vectors transport vectors 100
      insertCalls := [vectors] }

/-- The methods `class EndeeClient` defines (endee_client.py lines 36-171).
`get_vector` is not among them, so the attribute access
`self.endee_client.get_vector` in search_engine.py line 144 raises
`AttributeError`. -/
def endeeClientMethods : List String :=
  ["__init__", "__del__", "health_check", "create_collection",
   "delete_collection", "insert_vectors", "search"]

/-- Modelled from the spec: the gateway operation `fetchById(id) -> record
or absent` (spec section 4.3), which endee_client.py does not implement
although search_engine.py calls it as `get_vector`.  The store is the list
of persisted records. -/
def get_vector (store : List VectorDocument) (id : String) :
    Option VectorDocument :=
  store.find? (fun d => d.id == id)

/-- The candidate-walking loop of `find_related_papers` (search_engine.py
lines 159-179): skip hits whose `paper_id` metadata equals the seed paper,
skip hits whose `paper_id` was already emitted (`seen_papers`, an absent key
giving `None` which the set stores too), convert and keep the rest, and stop
as soon as `top_k` matches are collected. -/
def find_related_loop (paper_id : String) (top_k : Nat) :
    List SearchResult → List SearchMatch → List (Option String) → List SearchMatch
  | [], acc, _ => acc
  | result :: rest, acc, seen =>
    let rpid := result.metadata.paper_id
    if rpid = some paper_id then find_related_loop paper_id top_k rest acc seen
    else if rpid ∈ seen then find_related_loop paper_id top_k rest acc seen
    else
      let acc' := acc ++ [convert_to_search_match result]
      if top_k ≤ acc'.length then acc'
      else find_related_loop paper_id top_k rest acc' (rpid :: seen)

/-- What `find_related_papers` would compute if the fetch-by-id call
succeeded (search_engine.py lines 141-182 with `get_vector` supplied by the
spec-modelled gateway operation): fetch `{paper_id}_chunk_0`, return empty
when absent, otherwise walk the hits the gateway search returned for the
fetched vector (parametrised as `raw`, the response to the `top_k * 3`
over-fetch). -/
def find_related_papers_intended (store : List VectorDocument)
    (raw : List SearchResult) (paper_id : String) (top_k : Nat) :
    List SearchMatch :=
  match get_vector store (paper_id ++ "_chunk_0") with
  | none => []
  | some _ => find_related_loop paper_id top_k raw [] []

/-- `SearchEngine.find_related_papers` (search_engine.py lines 124-186) as
the code actually behaves: the body's first step evaluates
`self.endee_client.get_vector(vector_id)`, and since `EndeeClient` defines
no `get_vector` method the lookup raises `AttributeError`, which the
enclosing blanket `except Exception` turns into `[]`. -/
def find_related_papers (store : List VectorDocument) (raw : List SearchResult)
    (paper_id : String) (top_k : Nat) : List SearchMatch :=
  if endeeClientMethods.contains "get_vector" then
    find_related_papers_intended store raw paper_id top_k
  else []

/-- Concrete store hit used in counterexamples: a chunk of paper `p7`
scoring `2/5`. -/
def cexHit : SearchResult :=
  ⟨"p7_chunk_0", Rat.mk' 2 5, ⟨some "p7", some "Paper 7", some "text", some 0⟩⟩

/-- Concrete store for the threshold counterexample: one `2/5`-scoring hit
whatever `k` is requested. -/
def cexStore : Nat → List SearchResult := fun _ => [cexHit]

/-- Concrete persisted store for the related-papers bug: the seed paper's
first chunk is present. -/
def relStore : List VectorDocument :=
  [⟨"paper_42_chunk_0", [1, 0], ⟨[], "paper_42", 0, 1, ['x']⟩⟩,
   ⟨"paper_7_chunk_0", [1, 0], ⟨[], "paper_7", 0, 1, ['y']⟩⟩]

/-- Concrete gateway search response for the related-papers bug: one
high-scoring hit from a different paper. -/
def relRaw : List SearchResult :=
  [⟨"paper_7_chunk_0", Rat.mk' 9 10,
    ⟨some "paper_7", some "Paper 7", some "y", some 0⟩⟩]

/-- Non-increasing score order between two matches: the second scores at
most the first.  `List.Pairwise scoreGE` states that a list's similarity
scores are non-increasing. -/
def scoreGE (a b : SearchMatch) : Prop :=
  b.similarity_score ≤ a.similarity_score

/-- A match of paper `p1` scoring 1 (aggregation example). -/
def aggM1 : SearchMatch := ⟨"p1", "T1", "first", 0, 1, ⟨none, none, none, none⟩⟩

/-- A match of paper `p2` scoring 2 (aggregation example). -/
def aggM2 : SearchMatch := ⟨"p2", "T2", "second", 1, 2, ⟨none, none, none, none⟩⟩

/-- A second match of paper `p1`, tied at score 1 with `aggM1` (aggregation
example; checks ties keep their prior order). -/
def aggM3 : SearchMatch := ⟨"p1", "T1", "third", 2, 1, ⟨none, none, none, none⟩⟩

/-- The example match list for the aggregation witness. -/
def aggExample : List SearchMatch := [aggM1, aggM2, aggM3]

/-- `collapseWs` never emits a newline: every whitespace run becomes a single
space, every other emitted character is non-whitespace.  This justifies
dropping the `re.sub(r'\n\d+\n', '\n', ...)` step from `clean_text`: it can
never fire on a newline-free string. -/
theorem newline_not_mem_collapseWsGo (b : Bool) (s : List Char) :
    '\n' ∉ collapseWsGo b s := by
  induction s generalizing b with
  | nil => simp [collapseWsGo]
  | cons c rest ih =>
    by_cases hc : isPySpace c = true
    · cases b with
      | true => simpa [collapseWsGo, hc] using ih true
      | false =>
        simp only [collapseWsGo, hc, if_pos, Bool.false_eq_true, if_false]
        intro hmem
        rcases List.mem_cons.mp hmem with h | h
        · exact absurd h.symm (by decide)
        · exact ih true h
    · have hcn : c ≠ '\n' := by
        intro h; subst h; simp [isPySpace] at hc
      simp only [collapseWsGo, hc, Bool.false_eq_true, if_false]
      intro hmem
      rcases List.mem_cons.mp hmem with h | h
      · exact hcn h.symm
      · exact ih false h

/-- Shared description of `process_document`'s output: chunk indices are
`0..n-1` in order, and every chunk's metadata carries the parent paper id,
the total chunk count, its own index and its own text. -/
theorem process_document_fields (cs : Nat) (raw : List Char) (pid : String)
    (base : List (String × String)) :
    (process_document cs raw pid base).map DocumentChunk.chunk_index =
      List.range (process_document cs raw pid base).length ∧
    ∀ c ∈ process_document cs raw pid base,
      c.metadata.paper_id = pid ∧
      c.metadata.total_chunks = (process_document cs raw pid base).length ∧
      c.metadata.chunk_index = c.chunk_index ∧
      c.metadata.chunk_text = c.text ∧
      c.metadata.base = base := by
  unfold process_document
  by_cases hraw : raw.isEmpty
  · simp [hraw]
  · simp only [hraw, Bool.false_eq_true, if_false]
    constructor
    · rw [List.map_map, List.length_map, List.enum_length]
      have : (DocumentChunk.chunk_index ∘ fun it =>
          ({ text := it.2, chunk_index := it.1,
             metadata := { base := base, paper_id := pid, chunk_index := it.1,
                           total_chunks := (split_into_chunks cs (clean_text raw)).length,
                           chunk_text := it.2 } } : DocumentChunk)) = Prod.fst := by
        funext it; rfl
      rw [this, List.enum_map_fst]
    · intro c hc
      rcases List.mem_map.mp hc with ⟨it, _, rfl⟩
      refine ⟨rfl, ?_, rfl, rfl, rfl⟩
      simp [List.enum_length]

end RPC


set_option maxRecDepth 40000

/-- C3: chunking a document of three 60-character paragraphs separated by
blank lines with chunk size 150 produces exactly two chunks — the first two
paragraphs joined by a blank line, then the third — and paragraphs of 50 or
fewer characters are discarded before packing. -/
theorem claim_C3_chunking_scenario :
    RPC.split_into_chunks 150 RPC.threeParaText =
      [RPC.paraA ++ ['\n', '\n'] ++ RPC.paraB, RPC.paraC] ∧
    ∀ (text : List Char), ∀ p ∈ RPC.split_into_paragraphs text, 50 < p.length := by
  refine ⟨by decide, ?_⟩
  intro text p hp
  simpa using (List.mem_filter.mp hp).2

/-- Witness for C3 at a concrete paragraph of the scenario text. -/
theorem claim_C3_witness :
    RPC.paraA ∈ RPC.split_into_paragraphs RPC.threeParaText ∧
      50 < RPC.paraA.length :=
  ⟨by decide, claim_C3_chunking_scenario.2 RPC.threeParaText RPC.paraA (by decide)⟩

/-- C6: for every processed document, the chunk indices are exactly
`0..n-1` in order, every chunk's metadata carries the document's paper id,
and every chunk's `total_chunks` equals the number of chunks. -/
theorem claim_C6_chunk_invariants (cs : Nat) (raw : List Char) (pid : String)
    (base : List (String × String)) :
    (RPC.process_document cs raw pid base).map RPC.DocumentChunk.chunk_index =
      List.range (RPC.process_document cs raw pid base).length ∧
    ∀ c ∈ RPC.process_document cs raw pid base,
      c.metadata.paper_id = pid ∧
      c.metadata.total_chunks = (RPC.process_document cs raw pid base).length := by
  obtain ⟨h1, h2⟩ := RPC.process_document_fields cs raw pid base
  exact ⟨h1, fun c hc => ⟨(h2 c hc).1, (h2 c hc).2.1⟩⟩

/-- Witness for C6 at a concrete one-chunk document. -/
theorem claim_C6_witness :
    (⟨RPC.paraA, 0, ⟨[], "p", 0, 1, RPC.paraA⟩⟩ : RPC.DocumentChunk) ∈
        RPC.process_document 500 RPC.paraA "p" [] ∧
      (⟨RPC.paraA, 0, ⟨[], "p", 0, 1, RPC.paraA⟩⟩ :
        RPC.DocumentChunk).metadata.paper_id = "p" :=
  ⟨by decide,
    ((claim_C6_chunk_invariants 500 RPC.paraA "p" []).2
      (⟨RPC.paraA, 0, ⟨[], "p", 0, 1, RPC.paraA⟩⟩ : RPC.DocumentChunk)
      (by decide)).1⟩

/-- The configured similarity threshold is one half. -/
theorem SIMILARITY_THRESHOLD_eq_half : RPC.SIMILARITY_THRESHOLD = 1 / 2 := by
  rw [RPC.SIMILARITY_THRESHOLD, Rat.mk'_eq_divInt, Rat.divInt_eq_div]
  norm_num

/-- C10: a `min_similarity` of exactly 0.0 is falsy, so the engine replaces
it by the configured default 0.5 and the returned matches are exactly the
store hits scoring at least 1/2 (hits in [0, 1/2) are excluded); likewise a
`top_k` of 0 is falsy and replaced by the engine's default. -/
theorem claim_C10_falsy_defaults (store : Nat → List RPC.SearchResult)
    (dk : Nat) (tk : Option Nat) (msim : Option ℚ) :
    RPC.SearchEngine.search store dk tk (some 0) =
      ((store (RPC.pyOrNat tk dk)).filter
        (fun r => (1 : ℚ) / 2 ≤ r.score)).map RPC.convert_to_search_match ∧
    RPC.SearchEngine.search store dk (some 0) msim =
      RPC.SearchEngine.search store dk none msim ∧
    RPC.pyOrQ (some 0) RPC.SIMILARITY_THRESHOLD = 1 / 2 ∧
    RPC.pyOrNat (some 0) dk = dk := by
  refine ⟨?_, rfl, ?_, rfl⟩
  · simp [RPC.SearchEngine.search, RPC.pyOrQ, SIMILARITY_THRESHOLD_eq_half]
  · simp [RPC.pyOrQ, SIMILARITY_THRESHOLD_eq_half]

/-- C2 as stated is false: requesting threshold 0.0 applies the default 0.5
instead, so raising the threshold from 0 to 3/10 grows the result set for
the same query and top-k (the store holds one hit scoring 2/5). -/
theorem claim_C2_counterexample :
    (0 : ℚ) ≤ Rat.mk' 3 10 ∧
    ¬ (∀ m ∈ RPC.SearchEngine.search RPC.cexStore 10 none (some (Rat.mk' 3 10)),
        m ∈ RPC.SearchEngine.search RPC.cexStore 10 none (some 0)) := by
  decide

/-- C2 amended: every match returned for requested threshold T scores at
least T, and for T ≠ 0 (a zero threshold is falsy and becomes the default
0.5) raising the threshold to any T' ≥ T never grows the result set. -/
theorem claim_C2_threshold_law (store : Nat → List RPC.SearchResult) (dk : Nat)
    (tk : Option Nat) (T Tp : ℚ) :
    (∀ m ∈ RPC.SearchEngine.search store dk tk (some T),
      T ≤ m.similarity_score) ∧
    (T ≠ 0 → T ≤ Tp →
      ∀ m ∈ RPC.SearchEngine.search store dk tk (some Tp),
        m ∈ RPC.SearchEngine.search store dk tk (some T)) := by
  have hhalf : (0 : ℚ) ≤ RPC.SIMILARITY_THRESHOLD := by
    rw [SIMILARITY_THRESHOLD_eq_half]; norm_num
  constructor
  · intro m hm
    simp only [RPC.SearchEngine.search, List.mem_map, List.mem_filter,
      decide_eq_true_eq] at hm
    obtain ⟨r, ⟨hr, hth⟩, rfl⟩ := hm
    show T ≤ r.score
    by_cases hT : T = 0
    · subst hT
      simp only [RPC.pyOrQ, if_pos rfl] at hth
      exact le_trans hhalf hth
    · simp only [RPC.pyOrQ, if_neg hT] at hth
      exact hth
  · intro hT hle m hm
    simp only [RPC.SearchEngine.search, List.mem_map, List.mem_filter,
      decide_eq_true_eq] at hm ⊢
    obtain ⟨r, ⟨hr, hth⟩, rfl⟩ := hm
    refine ⟨r, ⟨hr, ?_⟩, rfl⟩
    by_cases hTp : Tp = 0
    · subst hTp
      simp only [RPC.pyOrQ, if_pos rfl] at hth
      simp only [RPC.pyOrQ, if_neg hT]
      exact le_trans hle (le_trans hhalf hth)
    · simp only [RPC.pyOrQ, if_neg hTp] at hth
      simp only [RPC.pyOrQ, if_neg hT]
      exact le_trans hle hth

/-- Witness for the amended C2 at concrete thresholds 3/10 ≤ 2/5 on the
one-hit store. -/
theorem claim_C2_witness :
    ((Rat.mk' 3 10 : ℚ) ≠ 0 ∧ (Rat.mk' 3 10 : ℚ) ≤ Rat.mk' 2 5) ∧
    RPC.convert_to_search_match RPC.cexHit ∈
      RPC.SearchEngine.search RPC.cexStore 10 none (some (Rat.mk' 3 10)) :=
  ⟨⟨by decide, by decide⟩,
    (claim_C2_threshold_law RPC.cexStore 10 none (Rat.mk' 3 10) (Rat.mk' 2 5)).2
      (by decide) (by decide) (RPC.convert_to_search_match RPC.cexHit)
      (by decide)⟩

/-- C5: when document processing yields zero chunks, `ingest_single_paper`
returns failure and makes no write call to the vector store. -/
theorem claim_C5_zero_chunks_fail
    (transport : List RPC.VectorDocument → Except RPC.PyError RPC.HttpResponse)
    (embedder : List (List Char) → List (List ℚ))
    (cs : Nat) (rawText : List Char) (pid : String)
    (base : List (String × String)) :
    RPC.process_document cs rawText pid base = [] →
    RPC.IngestionPipeline.ingest_single_paper transport embedder cs rawText
      pid base = ⟨false, []⟩ := by
  intro h
  simp [RPC.IngestionPipeline.ingest_single_paper, h]

/-- Witness for C5 at the empty (0-byte) file. -/
theorem claim_C5_witness :
    RPC.process_document 500 [] "p" [] = [] ∧
    RPC.IngestionPipeline.ingest_single_paper
      (fun _ => Except.error RPC.PyError.httpxError) (fun _ => []) 500 [] "p" [] =
      ⟨false, []⟩ :=
  ⟨rfl,
    claim_C5_zero_chunks_fail (fun _ => Except.error RPC.PyError.httpxError)
      (fun _ => []) 500 [] "p" [] rfl⟩

/-- `ingest_build` produces exactly one record per chunk; when the chunk
indices are dense (`0..n-1`) record `i` has id `{pid}_chunk_{i}` and carries
the `i`-th embedding. -/
theorem ingest_build_spec (pid : String) (chunks : List RPC.DocumentChunk)
    (embs : List (List ℚ)) (hlen : embs.length = chunks.length)
    (hidx : chunks.map RPC.DocumentChunk.chunk_index = List.range chunks.length) :
    (RPC.ingest_build pid chunks embs).length = chunks.length ∧
    ∀ i (hi : i < (RPC.ingest_build pid chunks embs).length),
      ((RPC.ingest_build pid chunks embs).get ⟨i, hi⟩).id =
        pid ++ "_chunk_" ++ toString i ∧
      ((RPC.ingest_build pid chunks embs).get ⟨i, hi⟩).vector = embs.getD i [] := by
  have hlzip : (chunks.zip embs).length = chunks.length := by
    rw [List.length_zip, hlen, min_self]
  have hl : (RPC.ingest_build pid chunks embs).length = chunks.length := by
    rw [RPC.ingest_build, List.length_map, hlzip]
  refine ⟨hl, ?_⟩
  intro i hi
  have hic : i < chunks.length := hl ▸ hi
  have hie : i < embs.length := by omega
  have hidxi : chunks[i].chunk_index = i := by
    have h2 : (chunks.map RPC.DocumentChunk.chunk_index)[i]? =
        (List.range chunks.length)[i]? := by rw [hidx]
    rw [List.getElem?_eq_getElem (by rw [List.length_map]; exact hic),
        List.getElem?_eq_getElem (by rw [List.length_range]; exact hic)] at h2
    have h3 := Option.some.inj h2
    rw [List.getElem_map, List.getElem_range] at h3
    exact h3
  constructor
  · rw [List.get_eq_getElem]
    simp only [RPC.ingest_build, List.getElem_map, List.getElem_zip]
    rw [hidxi]
  · rw [List.get_eq_getElem]
    simp only [RPC.ingest_build, List.getElem_map, List.getElem_zip]
    rw [List.getD_eq_getElem embs [] hie]

/-- C7: on a successful (nonempty-chunks) ingestion, exactly one record is
built per chunk and handed to the store in a single insert call; record `i`
has the deterministic id `{paper_id}_chunk_{i}` (the chunk's index), and its
vector is the `i`-th element of the batch-embedding output (positional
pairing), assuming the embedding provider's contract of one output vector
per input text. -/
theorem claim_C7_record_ids
    (transport : List RPC.VectorDocument → Except RPC.PyError RPC.HttpResponse)
    (embedder : List (List Char) → List (List ℚ))
    (cs : Nat) (rawText : List Char) (pid : String)
    (base : List (String × String)) :
    (embedder ((RPC.process_document cs rawText pid base).map
        RPC.DocumentChunk.text)).length =
      (RPC.process_document cs rawText pid base).length →
    RPC.process_document cs rawText pid base ≠ [] →
    (RPC.IngestionPipeline.ingest_single_paper transport embedder cs rawText
        pid base).insertCalls =
      [RPC.ingest_build pid (RPC.process_document cs rawText pid base)
        (embedder ((RPC.process_document cs rawText pid base).map
          RPC.DocumentChunk.text))] ∧
    (RPC.ingest_build pid (RPC.process_document cs rawText pid base)
        (embedder ((RPC.process_document cs rawText pid base).map
          RPC.DocumentChunk.text))).length =
      (RPC.process_document cs rawText pid base).length ∧
    ∀ i (hi : i < (RPC.ingest_build pid (RPC.process_document cs rawText pid base)
        (embedder ((RPC.process_document cs rawText pid base).map
          RPC.DocumentChunk.text))).length),
      ((RPC.ingest_build pid (RPC.process_document cs rawText pid base)
          (embedder ((RPC.process_document cs rawText pid base).map
            RPC.DocumentChunk.text))).get ⟨i, hi⟩).id =
        pid ++ "_chunk_" ++ toString i ∧
      ((RPC.ingest_build pid (RPC.process_document cs rawText pid base)
          (embedder ((RPC.process_document cs rawText pid base).map
            RPC.DocumentChunk.text))).get ⟨i, hi⟩).vector =
        (embedder ((RPC.process_document cs rawText pid base).map
          RPC.DocumentChunk.text)).getD i [] := by
  intro hlen hne
  have hidx := (RPC.process_document_fields cs rawText pid base).1
  have hE : (RPC.process_document cs rawText pid base).isEmpty = false := by
    cases h : RPC.process_document cs rawText pid base with
    | nil => exact absurd h hne
    | cons a l => rfl
  obtain ⟨hl, hget⟩ := ingest_build_spec pid
    (RPC.process_document cs rawText pid base)
    (embedder ((RPC.process_document cs rawText pid base).map
      RPC.DocumentChunk.text)) hlen hidx
  refine ⟨?_, hl, hget⟩
  simp [RPC.IngestionPipeline.ingest_single_paper, hE]

/-- Witness for C7 at a concrete one-chunk document with a one-vector
embedder. -/
theorem claim_C7_witness :
    ((fun ts : List (List Char) => ts.map (fun _ => [(1 : ℚ)]))
        ((RPC.process_document 500 RPC.paraA "p" []).map
          RPC.DocumentChunk.text)).length =
      (RPC.process_document 500 RPC.paraA "p" []).length ∧
    RPC.process_document 500 RPC.paraA "p" [] ≠ [] ∧
    (RPC.IngestionPipeline.ingest_single_paper
        (fun _ => Except.ok ⟨200, none⟩)
        (fun ts => ts.map (fun _ => [(1 : ℚ)])) 500 RPC.paraA "p"
        []).insertCalls =
      [RPC.ingest_build "p" (RPC.process_document 500 RPC.paraA "p" [])
        ((fun ts : List (List Char) => ts.map (fun _ => [(1 : ℚ)]))
          ((RPC.process_document 500 RPC.paraA "p" []).map
            RPC.DocumentChunk.text))] :=
  ⟨by decide, by decide,
    (claim_C7_record_ids (fun _ => Except.ok ⟨200, none⟩)
      (fun ts => ts.map (fun _ => [(1 : ℚ)])) 500 RPC.paraA "p" []
      (by decide) (by decide)).1⟩

/-- C8: the similarity operation returns 0 whenever either vector has zero
norm (never dividing by zero), and it is symmetric in its two arguments;
`nrm` is the (floating-point, hence abstracted) Euclidean norm. -/
theorem claim_C8_similarity (nrm : List ℚ → ℚ) (a b : List ℚ)
    (hdim : a.length = b.length) :
    ((nrm a = 0 ∨ nrm b = 0) → RPC.compute_similarity nrm a b = 0) ∧
    RPC.compute_similarity nrm a b = RPC.compute_similarity nrm b a := by
  constructor
  · intro h
    have hd : nrm a * nrm b = 0 := by
      rcases h with h | h <;> simp [h]
    simp [RPC.compute_similarity, hd]
  · have hdot : RPC.dotList a b = RPC.dotList b a := by
      unfold RPC.dotList
      rw [List.zipWith_comm_of_comm (fun x y => x * y) (fun x y => mul_comm x y)]
    simp only [RPC.compute_similarity]
    rw [hdot, mul_comm (nrm a) (nrm b)]

/-- Witness for C8 at concrete equal-length vectors under the zero norm
function. -/
theorem claim_C8_witness :
    ([(1 : ℚ)].length = [(2 : ℚ)].length) ∧
    ((fun _ : List ℚ => (0 : ℚ)) [(1 : ℚ)] = 0 ∨
      (fun _ : List ℚ => (0 : ℚ)) [(2 : ℚ)] = 0) ∧
    RPC.compute_similarity (fun _ => 0) [(1 : ℚ)] [(2 : ℚ)] = 0 :=
  ⟨rfl, Or.inl rfl,
    (claim_C8_similarity (fun _ => 0) [(1 : ℚ)] [(2 : ℚ)] rfl).1 (Or.inl rfl)⟩

/-- C4: every gateway operation returns a plain value — the `try` body's
result when it succeeds and the documented falsy/empty value when it raises
— so no exception propagates to callers; in particular a transport error
yields `False`/`[]` for each operation, a non-200 search response yields
`[]`, and a non-2xx insert response on a nonempty document list yields
`False`. -/
theorem claim_C4_gateway_never_raises
    (e : RPC.PyError) (r : RPC.HttpResponse)
    (resp : Except RPC.PyError RPC.HttpResponse)
    (transport : List RPC.VectorDocument → Except RPC.PyError RPC.HttpResponse)
    (docs : List RPC.VectorDocument) (bs : Nat) :
    RPC.EndeeClient.health_check (.error e) = false ∧
    RPC.EndeeClient.delete_collection (.error e) = false ∧
    RPC.EndeeClient.search_client (.error e) = [] ∧
    (r.status ≠ 200 → RPC.EndeeClient.search_client (.ok r) = []) ∧
    ((∃ v, RPC.EndeeClient.search_body resp = .ok v ∧
        RPC.EndeeClient.search_client resp = v) ∨
      (∃ err, RPC.EndeeClient.search_body resp = .error err ∧
        RPC.EndeeClient.search_client resp = [])) ∧
    ((∃ b, RPC.EndeeClient.insert_vectors_body transport docs bs = .ok b ∧
        RPC.EndeeClient.insert_vectors transport docs bs = b) ∨
      (∃ err, RPC.EndeeClient.insert_vectors_body transport docs bs = .error err ∧
        RPC.EndeeClient.insert_vectors transport docs bs = false)) ∧
    (docs ≠ [] →
      RPC.EndeeClient.insert_vectors (fun _ => .error e) docs bs = false) ∧
    (docs ≠ [] → r.status ≠ 200 → r.status ≠ 201 →
      RPC.EndeeClient.insert_vectors (fun _ => .ok r) docs bs = false) := by
  refine ⟨rfl, rfl, rfl, ?_, ?_, ?_, ?_, ?_⟩
  · intro h200
    simp [RPC.EndeeClient.search_client, RPC.EndeeClient.search_body, h200]
  · cases hb : RPC.EndeeClient.search_body resp with
    | ok v => exact Or.inl ⟨v, rfl, by simp [RPC.EndeeClient.search_client, hb]⟩
    | error err =>
      exact Or.inr ⟨err, rfl, by simp [RPC.EndeeClient.search_client, hb]⟩
  · cases hb : RPC.EndeeClient.insert_vectors_body transport docs bs with
    | ok b => exact Or.inl ⟨b, rfl, by simp [RPC.EndeeClient.insert_vectors, hb]⟩
    | error err =>
      exact Or.inr ⟨err, rfl, by simp [RPC.EndeeClient.insert_vectors, hb]⟩
  · intro hne
    by_cases hbs : bs = 0
    · simp [RPC.EndeeClient.insert_vectors, RPC.EndeeClient.insert_vectors_body,
        hbs]
    · cases docs with
      | nil => exact absurd rfl hne
      | cons d ds =>
        simp [RPC.EndeeClient.insert_vectors, RPC.EndeeClient.insert_vectors_body,
          hbs, RPC.chunksOf, RPC.chunksOfGo, RPC.insertLoopBody]
  · intro hne h200 h201
    by_cases hbs : bs = 0
    · simp [RPC.EndeeClient.insert_vectors, RPC.EndeeClient.insert_vectors_body,
        hbs]
    · cases docs with
      | nil => exact absurd rfl hne
      | cons d ds =>
        simp [RPC.EndeeClient.insert_vectors, RPC.EndeeClient.insert_vectors_body,
          hbs, RPC.chunksOf, RPC.chunksOfGo, RPC.insertLoopBody, h200, h201]

/-- Witness for C4 at a concrete failed transport and a concrete 500
response. -/
theorem claim_C4_witness :
    ((⟨500, none⟩ : RPC.HttpResponse).status ≠ 200) ∧
    RPC.EndeeClient.search_client (.ok ⟨500, none⟩) = [] ∧
    RPC.relStore ≠ [] ∧
    RPC.EndeeClient.insert_vectors (fun _ => .error RPC.PyError.httpxError)
      RPC.relStore 100 = false :=
  ⟨by decide,
    (claim_C4_gateway_never_raises RPC.PyError.httpxError ⟨500, none⟩
      (.error RPC.PyError.httpxError) (fun _ => .error RPC.PyError.httpxError)
      RPC.relStore 100).2.2.2.1 (by decide),
    by decide,
    (claim_C4_gateway_never_raises RPC.PyError.httpxError ⟨500, none⟩
      (.error RPC.PyError.httpxError) (fun _ => .error RPC.PyError.httpxError)
      RPC.relStore 100).2.2.2.2.2.2.1 (by decide)⟩

/-- C1 (code bug): `EndeeClient` implements no `get_vector` operation, so
`find_related_papers` raises `AttributeError` internally on every call and
the blanket handler returns the empty list — even when the seed record
`paper_42_chunk_0` is stored and the gateway search would return a related
paper, where the spec's fetch-by-id contract (modelled as `get_vector`)
would make it return that related paper. -/
theorem claim_C1_get_vector_missing :
    RPC.endeeClientMethods.contains "get_vector" = false ∧
    RPC.find_related_papers RPC.relStore RPC.relRaw "paper_42" 3 = [] ∧
    RPC.get_vector RPC.relStore "paper_42_chunk_0" ≠ none ∧
    RPC.find_related_papers_intended RPC.relStore RPC.relRaw "paper_42" 3 ≠ [] := by
  exact ⟨by decide, by decide, by decide, by decide⟩

/-- Inserting an element permutes it to the front. -/
theorem insertDesc_perm (x : RPC.SearchMatch) (l : List RPC.SearchMatch) :
    (RPC.insertDesc x l).Perm (x :: l) := by
  induction l with
  | nil => simp [RPC.insertDesc]
  | cons y ys ih =>
    by_cases h : x.similarity_score ≤ y.similarity_score
    · simp only [RPC.insertDesc, if_pos h]
      exact (List.Perm.cons y ih).trans (List.Perm.swap x y ys)
    · simp [RPC.insertDesc, if_neg h]

/-- Inserting into a non-increasing list keeps it non-increasing. -/
theorem insertDesc_sorted (x : RPC.SearchMatch) (l : List RPC.SearchMatch)
    (h : List.Pairwise RPC.scoreGE l) :
    List.Pairwise RPC.scoreGE (RPC.insertDesc x l) := by
  induction l with
  | nil => simp [RPC.insertDesc, RPC.scoreGE]
  | cons y ys ih =>
    rcases List.pairwise_cons.mp h with ⟨hy, hys⟩
    by_cases hx : x.similarity_score ≤ y.similarity_score
    · simp only [RPC.insertDesc, if_pos hx]
      refine List.pairwise_cons.mpr ⟨?_, ih hys⟩
      intro b hb
      rcases List.mem_cons.mp ((insertDesc_perm x ys).mem_iff.mp hb) with rfl | hb'
      · exact hx
      · exact hy b hb'
    · simp only [RPC.insertDesc, if_neg hx]
      push_neg at hx
      refine List.pairwise_cons.mpr ⟨?_, h⟩
      intro b hb
      rcases List.mem_cons.mp hb with rfl | hb'
      · exact le_of_lt hx
      · exact le_trans (hy b hb') (le_of_lt hx)

/-- Stability of one insertion, phrased through score-classes: inserting `x`
into a non-increasing list puts it after every element of its own score
class and does not disturb the other classes. -/
theorem insertDesc_filter (x : RPC.SearchMatch) (l : List RPC.SearchMatch)
    (s : ℚ) (h : List.Pairwise RPC.scoreGE l) :
    (RPC.insertDesc x l).filter (fun m => decide (m.similarity_score = s)) =
      if x.similarity_score = s
      then l.filter (fun m => decide (m.similarity_score = s)) ++ [x]
      else l.filter (fun m => decide (m.similarity_score = s)) := by
  induction l with
  | nil =>
    by_cases hx : x.similarity_score = s <;> simp [RPC.insertDesc, hx]
  | cons y ys ih =>
    rcases List.pairwise_cons.mp h with ⟨hy, hys⟩
    by_cases hxy : x.similarity_score ≤ y.similarity_score
    · simp only [RPC.insertDesc, if_pos hxy, List.filter_cons]
      rw [ih hys]
      by_cases hx : x.similarity_score = s <;>
        by_cases hyy : y.similarity_score = s <;> simp [hx, hyy]
    · push_neg at hxy
      simp only [RPC.insertDesc, if_neg (not_le.mpr hxy)]
      by_cases hx : x.similarity_score = s
      · have hnil : (y :: ys).filter
            (fun m => decide (m.similarity_score = s)) = [] := by
          rw [List.filter_eq_nil_iff]
          intro a ha
          simp only [decide_eq_true_eq]
          intro has
          rcases List.mem_cons.mp ha with rfl | ha'
          · exact absurd (has.trans hx.symm) (ne_of_lt hxy)
          · have : a.similarity_score ≤ y.similarity_score := hy a ha'
            have : a.similarity_score < x.similarity_score := lt_of_le_of_lt this hxy
            rw [has, hx] at this
            exact lt_irrefl s this
        rw [List.filter_cons_of_pos (by simpa using hx), hnil, hx]
        simp
      · rw [List.filter_cons_of_neg (by simpa using hx)]
        simp [hx]

/-- The insertion-sort fold: starting from a non-increasing accumulator it
yields a non-increasing permutation of accumulator-plus-input whose
score-classes are the accumulator's followed by the input's in order
(stability). -/
theorem sortFold_spec (ms : List RPC.SearchMatch) :
    ∀ acc : List RPC.SearchMatch, List.Pairwise RPC.scoreGE acc →
    List.Pairwise RPC.scoreGE
      (ms.foldl (fun a x => RPC.insertDesc x a) acc) ∧
    (ms.foldl (fun a x => RPC.insertDesc x a) acc).Perm (acc ++ ms) ∧
    ∀ s : ℚ,
      (ms.foldl (fun a x => RPC.insertDesc x a) acc).filter
          (fun m => decide (m.similarity_score = s)) =
        acc.filter (fun m => decide (m.similarity_score = s)) ++
          ms.filter (fun m => decide (m.similarity_score = s)) := by
  induction ms with
  | nil =>
    intro acc hacc
    refine ⟨hacc, by simp, by simp⟩
  | cons m rest ih =>
    intro acc hacc
    obtain ⟨hs, hp, hf⟩ := ih (RPC.insertDesc m acc) (insertDesc_sorted m acc hacc)
    refine ⟨hs, ?_, ?_⟩
    · refine hp.trans ?_
      refine (List.Perm.append_right rest (insertDesc_perm m acc)).trans ?_
      exact List.perm_middle.symm
    · intro s
      rw [List.foldl_cons, hf s, insertDesc_filter m acc s hacc,
        List.filter_cons]
      by_cases hm : m.similarity_score = s
      · simp [hm]
      · simp [hm]

/-- `sortDesc` is a non-increasing, stable permutation of its input. -/
theorem sortDesc_spec (g : List RPC.SearchMatch) :
    List.Pairwise RPC.scoreGE (RPC.sortDesc g) ∧
    (RPC.sortDesc g).Perm g ∧
    ∀ s : ℚ,
      (RPC.sortDesc g).filter (fun m => decide (m.similarity_score = s)) =
        g.filter (fun m => decide (m.similarity_score = s)) := by
  obtain ⟨hs, hp, hf⟩ := sortFold_spec g [] List.Pairwise.nil
  exact ⟨hs, by simpa using hp, fun s => by simpa using hf s⟩

/-- `addMatch` keeps the key list unchanged when the paper id is already a
key, and appends the new key at the end otherwise (dict insertion order). -/
theorem addMatch_keys (agg : List (String × List RPC.SearchMatch))
    (m : RPC.SearchMatch) :
    (RPC.addMatch agg m).map Prod.fst =
      if m.paper_id ∈ agg.map Prod.fst then agg.map Prod.fst
      else agg.map Prod.fst ++ [m.paper_id] := by
  induction agg with
  | nil => simp [RPC.addMatch]
  | cons pg rest ih =>
    by_cases h : pg.1 = m.paper_id
    · simp [RPC.addMatch, h]
    · have hne : ¬ m.paper_id = pg.1 := fun hh => h hh.symm
      simp only [RPC.addMatch, if_neg h, List.map_cons, ih, List.mem_cons, hne,
        false_or]
      by_cases hm : m.paper_id ∈ rest.map Prod.fst
      · simp [hm]
      · simp [hm]

/-- Effect of `addMatch` on one key's group: the match is appended to its
own paper's group and no other group changes. -/
theorem addMatch_lookup (agg : List (String × List RPC.SearchMatch))
    (m : RPC.SearchMatch) (p : String) :
    RPC.lookupGroup p (RPC.addMatch agg m) =
      RPC.lookupGroup p agg ++ (if m.paper_id = p then [m] else []) := by
  induction agg with
  | nil =>
    by_cases hp : m.paper_id = p <;>
      simp [RPC.addMatch, RPC.lookupGroup, hp]
  | cons pg rest ih =>
    by_cases h : pg.1 = m.paper_id
    · simp only [RPC.addMatch, if_pos h, RPC.lookupGroup]
      by_cases hp : pg.1 = p
      · have hmp : m.paper_id = p := h.symm.trans hp
        simp [hp, hmp]
      · have hmp : ¬ m.paper_id = p := fun hh => hp (h.trans hh)
        simp [hp, hmp]
    · simp only [RPC.addMatch, if_neg h, RPC.lookupGroup]
      by_cases hp : pg.1 = p
      · have hmp : ¬ m.paper_id = p := fun hh => h (hp.trans hh.symm)
        simp [hp, hmp]
      · simp [hp, ih]

/-- `addMatch` preserves the invariant that every stored match carries its
group's key as paper id. -/
theorem addMatch_wf (agg : List (String × List RPC.SearchMatch))
    (m : RPC.SearchMatch)
    (h : ∀ pg ∈ agg, ∀ x ∈ pg.2, x.paper_id = pg.1) :
    ∀ pg ∈ RPC.addMatch agg m, ∀ x ∈ pg.2, x.paper_id = pg.1 := by
  induction agg with
  | nil =>
    intro pg hpg x hx
    simp only [RPC.addMatch, List.mem_singleton] at hpg
    subst hpg
    simp only [List.mem_singleton] at hx
    subst hx
    rfl
  | cons qg rest ih =>
    intro pg hpg x hx
    by_cases hq : qg.1 = m.paper_id
    · simp only [RPC.addMatch, if_pos hq, List.mem_cons] at hpg
      rcases hpg with rfl | hpg
      · rcases List.mem_append.mp hx with hx' | hx'
        · exact h qg (List.mem_cons_self qg rest) x hx'
        · simp only [List.mem_singleton] at hx'
          subst hx'
          exact hq.symm
      · exact h pg (List.mem_cons_of_mem qg hpg) x hx
    · simp only [RPC.addMatch, if_neg hq, List.mem_cons] at hpg
      rcases hpg with rfl | hpg
      · exact h pg (List.mem_cons_self pg rest) x hx
      · exact ih (fun r hr => h r (List.mem_cons_of_mem qg hr)) pg hpg x hx

/-- `addMatch` preserves key uniqueness. -/
theorem addMatch_nodup (agg : List (String × List RPC.SearchMatch))
    (m : RPC.SearchMatch) (h : (agg.map Prod.fst).Nodup) :
    ((RPC.addMatch agg m).map Prod.fst).Nodup := by
  rw [addMatch_keys]
  by_cases hm : m.paper_id ∈ agg.map Prod.fst
  · simpa [hm] using h
  · simp only [hm, if_neg, ite_false]
    rw [List.nodup_append]
    refine ⟨h, List.nodup_singleton _, ?_⟩
    intro a ha hb
    simp only [List.mem_singleton] at hb
    subst hb
    exact hm ha

/-- The grouping fold: keys come out in first-encounter order continuing the
accumulator's, the group invariant and key uniqueness are preserved, and
each key's final group is its initial group followed by the matches with
that paper id in input order. -/
theorem groupFold_spec (ms : List RPC.SearchMatch) :
    ∀ acc : List (String × List RPC.SearchMatch),
    (∀ pg ∈ acc, ∀ x ∈ pg.2, x.paper_id = pg.1) →
    (acc.map Prod.fst).Nodup →
    ((ms.foldl RPC.addMatch acc).map Prod.fst =
      RPC.encounterKeys ms (acc.map Prod.fst)) ∧
    (∀ pg ∈ ms.foldl RPC.addMatch acc, ∀ x ∈ pg.2, x.paper_id = pg.1) ∧
    ((ms.foldl RPC.addMatch acc).map Prod.fst).Nodup ∧
    ∀ p : String, RPC.lookupGroup p (ms.foldl RPC.addMatch acc) =
      RPC.lookupGroup p acc ++
        ms.filter (fun m => decide (m.paper_id = p)) := by
  induction ms with
  | nil =>
    intro acc hwf hnd
    exact ⟨rfl, hwf, hnd, fun p => by simp [RPC.encounterKeys]⟩
  | cons m rest ih =>
    intro acc hwf hnd
    obtain ⟨hk, hw, hn, hl⟩ :=
      ih (RPC.addMatch acc m) (addMatch_wf acc m hwf) (addMatch_nodup acc m hnd)
    refine ⟨?_, hw, hn, ?_⟩
    · rw [List.foldl_cons, hk, addMatch_keys]
      simp [RPC.encounterKeys]
    · intro p
      rw [List.foldl_cons, hl p, addMatch_lookup, List.filter_cons]
      by_cases hm : m.paper_id = p
      · simp [hm]
      · simp [hm]

/-- In an association list with unique keys, membership determines the
lookup result. -/
theorem lookup_eq_of_mem (agg : List (String × List RPC.SearchMatch))
    (p : String) (g : List RPC.SearchMatch) (hmem : (p, g) ∈ agg)
    (hnd : (agg.map Prod.fst).Nodup) : RPC.lookupGroup p agg = g := by
  induction agg with
  | nil => simp at hmem
  | cons qg rest ih =>
    rcases List.mem_cons.mp hmem with h | h
    · rw [← h]
      simp [RPC.lookupGroup]
    · have hp : p ∈ rest.map Prod.fst := by
        have := List.mem_map_of_mem Prod.fst h
        simpa using this
      rcases List.nodup_cons.mp hnd with ⟨hq, hrest⟩
      have hqp : ¬ qg.1 = p := fun hh => hq (hh ▸ hp)
      simp only [RPC.lookupGroup, if_neg hqp]
      exact ih h hrest

/-- A key appears among the first-encounter keys exactly when it is already
seen or occurs among the matches' paper ids. -/
theorem encounterKeys_mem (ms : List RPC.SearchMatch) :
    ∀ (seen : List String) (p : String),
    (p ∈ RPC.encounterKeys ms seen ↔
      p ∈ seen ∨ p ∈ ms.map RPC.SearchMatch.paper_id) := by
  induction ms with
  | nil => intro seen p; simp [RPC.encounterKeys]
  | cons m rest ih =>
    intro seen p
    simp only [RPC.encounterKeys]
    by_cases hm : m.paper_id ∈ seen
    · rw [if_pos hm, ih]
      simp only [List.map_cons, List.mem_cons]
      constructor
      · rintro (h | h)
        · exact Or.inl h
        · exact Or.inr (Or.inr h)
      · rintro (h | h | h)
        · exact Or.inl h
        · exact Or.inl (h ▸ hm)
        · exact Or.inr h
    · rw [if_neg hm, ih]
      simp only [List.mem_append, List.mem_singleton, List.map_cons,
        List.mem_cons]
      tauto

/-- First-encounter keys are unique when the seen keys are. -/
theorem encounterKeys_nodup (ms : List RPC.SearchMatch) :
    ∀ seen : List String, seen.Nodup → (RPC.encounterKeys ms seen).Nodup := by
  induction ms with
  | nil => intro s h; exact h
  | cons m rest ih =>
    intro s h
    simp only [RPC.encounterKeys]
    by_cases hm : m.paper_id ∈ s
    · rw [if_pos hm]
      exact ih s h
    · rw [if_neg hm]
      refine ih _ ?_
      rw [List.nodup_append]
      refine ⟨h, List.nodup_singleton _, ?_⟩
      intro a ha hb
      simp only [List.mem_singleton] at hb
      subst hb
      exact hm ha

/-- C9: `aggregate_results_by_paper` maps the distinct paper ids in
first-encounter order to groups; every match lands exactly in its own
paper's group (as a permutation of the input's matches with that id, and
score-class by score-class in input order — the tie-stability property);
within every group scores are non-increasing. -/
theorem claim_C9_aggregation (ms : List RPC.SearchMatch) :
    (RPC.aggregate_results_by_paper ms).map Prod.fst = RPC.paperKeys ms ∧
    ((RPC.aggregate_results_by_paper ms).map Prod.fst).Nodup ∧
    (∀ p : String,
      p ∈ RPC.paperKeys ms ↔ p ∈ ms.map RPC.SearchMatch.paper_id) ∧
    ∀ pg ∈ RPC.aggregate_results_by_paper ms,
      (∀ m ∈ pg.2, m.paper_id = pg.1) ∧
      pg.2.Perm (ms.filter (fun m => decide (m.paper_id = pg.1))) ∧
      List.Pairwise RPC.scoreGE pg.2 ∧
      ∀ s : ℚ,
        pg.2.filter (fun m => decide (m.similarity_score = s)) =
          (ms.filter (fun m => decide (m.paper_id = pg.1))).filter
            (fun m => decide (m.similarity_score = s)) := by
  obtain ⟨hk, hw, hn, hl⟩ := groupFold_spec ms [] (by simp) (by simp)
  have hkeys : (RPC.aggregate_results_by_paper ms).map Prod.fst =
      (RPC.groupByPaper ms).map Prod.fst := by
    rw [RPC.aggregate_results_by_paper, List.map_map]
    rfl
  refine ⟨?_, ?_, ?_, ?_⟩
  · rw [hkeys]
    exact hk
  · rw [hkeys]
    exact hn
  · intro p
    have := encounterKeys_mem ms [] p
    simpa [RPC.paperKeys] using this
  · intro pg hpg
    obtain ⟨qg, hqg, rfl⟩ := List.mem_map.mp hpg
    have hqg' : (qg.1, qg.2) ∈ RPC.groupByPaper ms := by
      simpa using hqg
    have h1 : RPC.lookupGroup qg.1 (RPC.groupByPaper ms) = qg.2 :=
      lookup_eq_of_mem (RPC.groupByPaper ms) qg.1 qg.2 hqg' hn
    have h2 : RPC.lookupGroup qg.1 (RPC.groupByPaper ms) =
        RPC.lookupGroup qg.1 [] ++
          ms.filter (fun m => decide (m.paper_id = qg.1)) := hl qg.1
    have hg : qg.2 = ms.filter (fun m => decide (m.paper_id = qg.1)) := by
      rw [← h1, h2]
      simp [RPC.lookupGroup]
    obtain ⟨hsorted, hperm, hfilters⟩ := sortDesc_spec qg.2
    refine ⟨?_, ?_, hsorted, ?_⟩
    · intro m hm
      exact hw qg hqg m (hperm.mem_iff.mp hm)
    · rw [← hg]
      exact hperm
    · intro s
      rw [hfilters s, hg]

/-- Witness for C9 at a three-match list with a score tie inside one
paper's group. -/
theorem claim_C9_witness :
    ("p1", [RPC.aggM1, RPC.aggM3]) ∈
        RPC.aggregate_results_by_paper RPC.aggExample ∧
      RPC.aggM3 ∈ [RPC.aggM1, RPC.aggM3] ∧
      RPC.aggM3.paper_id = "p1" ∧
      List.Pairwise RPC.scoreGE [RPC.aggM1, RPC.aggM3] :=
  ⟨by decide, by decide,
    ((claim_C9_aggregation RPC.aggExample).2.2.2
        ("p1", [RPC.aggM1, RPC.aggM3]) (by decide)).1 RPC.aggM3 (by decide),
    ((claim_C9_aggregation RPC.aggExample).2.2.2
        ("p1", [RPC.aggM1, RPC.aggM3]) (by decide)).2.2.1⟩
